import Mathlib

/-!
Verification of the task-manager service in `src/main.py` (FastAPI + SQLModel
over SQLite).  The whole observable state is one table of tasks; every endpoint
is a pure function from the table (plus the request) to the new table and an
HTTP-level result.  Machine integers never overflow here (ids and lengths are
small naturals), so ids are modelled as `Nat`.
-/

namespace TaskApi

/-- Strings are modelled as lists of characters. -/
abbrev Str := List Char

/-- ASCII whitespace stripped by Python `str.strip()` (pydantic
`strip_whitespace=True` calls it): space, tab, newline, carriage return,
vertical tab, form feed. -/
def isWs (c : Char) : Bool :=
  c == ' ' || c == '\t' || c == '\n' || c == '\r' || c == '\x0b' || c == '\x0c'

/-- Python `str.strip()`: drop whitespace from both ends. -/
def trim (s : Str) : Str :=
  ((s.dropWhile isWs).reverse.dropWhile isWs).reverse

/-- pydantic `constr(strip_whitespace=True, min_length=1, max_length=200)`
(src/main.py line 15): the stripped string must have length 1..200. -/
def validTitle (s : Str) : Bool :=
  decide (1 ≤ (trim s).length ∧ (trim s).length ≤ 200)

/-- SQLite's default `LIKE` comparison folds the 26 ASCII upper-case letters
to lower case (it is case-insensitive for ASCII only). -/
def foldChar (c : Char) : Char :=
  if 'A' ≤ c ∧ c ≤ 'Z' then Char.ofNat (c.toNat + 32) else c

/-- `leadMatch small big` : `small` is an initial segment of `big`
(character-wise `==`). -/
def leadMatch : Str → Str → Bool
  | [], _ => true
  | _ :: _, [] => false
  | a :: as, b :: bs => a == b && leadMatch as bs

/-- `occursIn small big` : `small` occurs contiguously inside `big`. -/
def occursIn : Str → Str → Bool
  | small, [] => small.isEmpty
  | small, b :: bs => leadMatch small (b :: bs) || occursIn small bs

/-- Fuel-driven SQL `LIKE` pattern matcher with SQLite's default collation:
`%` matches any sequence, `_` any single character, and plain characters
compare after ASCII case folding.  Structural recursion on the fuel keeps the
function kernel-reducible; every recursive step shrinks `pattern.length +
text.length`, so fuel `pattern.length + text.length + 1` always suffices. -/
def likeMatchF : Nat → Str → Str → Bool
  | 0, _, _ => false
  | _ + 1, [], s => s.isEmpty
  | f + 1, p :: ps, s =>
    if p == '%' then
      likeMatchF f ps s ||
        (match s with
         | [] => false
         | _ :: s' => likeMatchF f (p :: ps) s')
    else
      match s with
      | [] => false
      | c :: s' => (p == '_' || foldChar p == foldChar c) && likeMatchF f ps s'

/-- SQL `LIKE` with SQLite's default (ASCII-case-insensitive) collation. -/
def likeMatch (pattern text : Str) : Bool :=
  likeMatchF (pattern.length + text.length + 1) pattern text

/-- SQLAlchemy `column.contains(q)` (src/main.py line 76) compiles to
`column LIKE '%' || q || '%'`. -/
def likeContains (column q : Str) : Bool :=
  likeMatch ('%' :: (q ++ ['%'])) column

/-- A persisted row of the `task` table (class `Task`, src/main.py lines
14-23).  `id` and `created_at` are server-assigned, hence always present on a
stored row.  `title` is a NOT NULL column; `description`, `priority` and
`due_date` are nullable.  A calendar date is modelled as an abstract day
number, a timestamp as an abstract tick count. -/
structure Task where
  id : Nat
  title : Str
  description : Option Str
  done : Bool
  priority : Option Int
  due_date : Option Nat
  created_at : Nat
deriving DecidableEq, Repr

/-- Create payload `TaskCreate` (src/main.py lines 14-26), after pydantic has
filled in the defaults of the omitted fields. -/
structure TaskCreate where
  title : Str
  description : Option Str
  done : Bool
  priority : Option Int
  due_date : Option Nat
deriving DecidableEq, Repr

/-- The payload whose only given field is `title`: every other field takes its
documented default (src/main.py lines 16-19): `description=None`,
`done=False`, `priority=3`, `due_date=None`. -/
def defaultCreate (title : Str) : TaskCreate :=
  ⟨title, none, false, some 3, none⟩

/-- Update payload `TaskUpdate` (src/main.py lines 32-37).  Every field is
optional, and pydantic's `exclude_unset` distinguishes a field absent from the
JSON body (outer `none`) from a field explicitly set to `null` (inner
`none`). -/
structure TaskUpdate where
  title : Option (Option Str)
  description : Option (Option Str)
  done : Option (Option Bool)
  priority : Option (Option Int)
  due_date : Option (Option Nat)
deriving DecidableEq, Repr

/-- The empty PATCH body: no field set. -/
def emptyUpdate : TaskUpdate := ⟨none, none, none, none, none⟩

/-- A PATCH body whose only set field is `done`. -/
def doneOnly (d : Bool) : TaskUpdate := ⟨none, none, some (some d), none, none⟩

/-- The database: the rows of the single `task` table in storage (rowid)
order.  Rows are appended on insert, so the list order is insertion order,
which is the order an unordered `SELECT` returns on SQLite. -/
structure DB where
  rows : List Task
deriving DecidableEq, Repr

/-- The largest id present in the table (0 when empty). -/
def maxId (rows : List Task) : Nat :=
  rows.foldr (fun t m => max t.id m) 0

/-- SQLite assigns to a fresh row of an `INTEGER PRIMARY KEY` column the
largest existing rowid plus one. -/
def newId (rows : List Task) : Nat := maxId rows + 1

/-- Outcome of `POST /tasks/` (src/main.py lines 56-62): 201 with the created
row, or a pydantic validation error (FastAPI answers 422 before the handler
runs). -/
inductive CreateResult where
  | created (t : Task)
  | validationError
deriving DecidableEq, Repr

/-- HTTP status code of a create outcome. -/
def CreateResult.status : CreateResult → Nat
  | .created _ => 201
  | .validationError => 422

/-- Outcome of `GET /tasks/{id}` (src/main.py lines 85-90). -/
inductive GetResult where
  | ok (t : Task)
  | notFound
deriving DecidableEq, Repr

/-- HTTP status code of a get outcome. -/
def GetResult.status : GetResult → Nat
  | .ok _ => 200
  | .notFound => 404

/-- Outcome of `PATCH /tasks/{id}` (src/main.py lines 92-103).
`serverError` is the 500 produced when the commit violates a NOT NULL column
constraint (an `IntegrityError`, rolled back, nothing stored). -/
inductive UpdateResult where
  | ok (t : Task)
  | notFound
  | validationError
  | serverError
deriving DecidableEq, Repr

/-- HTTP status code of an update outcome. -/
def UpdateResult.status : UpdateResult → Nat
  | .ok _ => 200
  | .notFound => 404
  | .validationError => 422
  | .serverError => 500

/-- Outcome of `DELETE /tasks/{id}` (src/main.py lines 105-112).
`noContent` carries no task: the 204 body is empty. -/
inductive DeleteResult where
  | noContent
  | notFound
deriving DecidableEq, Repr

/-- HTTP status code of a delete outcome. -/
def DeleteResult.status : DeleteResult → Nat
  | .noContent => 204
  | .notFound => 404

/-- `POST /tasks/` (src/main.py lines 56-62).  pydantic validates the payload
first (strips the title and checks its length: 422 on failure, nothing
touches storage); the handler then inserts the row, the database assigning
`id` and `created_at` (`now` is the commit-time clock reading). -/
def create_task (db : DB) (now : Nat) (p : TaskCreate) : DB × CreateResult :=
  if validTitle p.title then
    let t : Task :=
      ⟨newId db.rows, trim p.title, p.description, p.done, p.priority, p.due_date, now⟩
    (⟨db.rows ++ [t]⟩, .created t)
  else
    (db, .validationError)

/-- `GET /tasks/{id}` (src/main.py lines 85-90): primary-key lookup. -/
def get_task (db : DB) (tid : Nat) : GetResult :=
  match db.rows.find? (fun r => r.id == tid) with
  | some t => .ok t
  | none => .notFound

/-- The `q` filter of the list endpoint (src/main.py line 76):
`Task.title.contains(q) | Task.description.contains(q)`.  A NULL description
never matches (`NULL LIKE x` is NULL, hence not true in SQL). -/
def qPred (qs : Str) (t : Task) : Bool :=
  likeContains t.title qs ||
    (match t.description with
     | some ds => likeContains ds qs
     | none => false)

/-- `GET /tasks/` (src/main.py lines 64-83).  The query is built by chaining
`where` clauses: line 75's `if q:` skips the substring filter when `q` is
absent or the empty string (Python truthiness); `done` and `priority` add
exact-match clauses when provided; finally `offset` then `limit` are
applied. -/
def list_tasks (db : DB) (q : Option Str) (done : Option Bool)
    (priority : Option Int) (limit offset : Nat) : List Task :=
  let r1 : List Task :=
    match q with
    | some qs => if qs.isEmpty then db.rows else db.rows.filter (qPred qs)
    | none => db.rows
  let r2 : List Task :=
    match done with
    | some d => r1.filter (fun t => t.done == d)
    | none => r1
  let r3 : List Task :=
    match priority with
    | some p => r2.filter (fun t => t.priority == some p)
    | none => r2
  (r3.drop offset).take limit

/-- Default values of the list endpoint's `limit` and `offset` parameters
(src/main.py lines 71-72). -/
def defaultLimit : Nat := 100

/-- Default `offset` (src/main.py line 72). -/
def defaultOffset : Nat := 0

/-- pydantic validation of a `TaskUpdate` body: a `title` that is present and
non-null must satisfy the `constr` bounds (src/main.py line 33); FastAPI
answers 422 before the handler otherwise. -/
def validUpdatePayload (u : TaskUpdate) : Bool :=
  match u.title with
  | some (some s) => validTitle s
  | _ => true

/-- Value the `title` column would hold after the `setattr` loop (src/main.py
lines 97-99): kept when unset, the stripped string when set (pydantic's
`constr` strips at parse time), NULL when explicitly set to null. -/
def mergedTitle (t : Task) (u : TaskUpdate) : Option Str :=
  match u.title with
  | none => some t.title
  | some none => none
  | some (some s) => some (trim s)

/-- Value the `done` column would hold after the `setattr` loop. -/
def mergedDone (t : Task) (u : TaskUpdate) : Option Bool :=
  match u.done with
  | none => some t.done
  | some v => v

/-- The `setattr` loop plus commit (src/main.py lines 97-101): each field
present in `dict(exclude_unset=True)` overwrites the row's attribute.  The
`title` and `done` columns are NOT NULL, so a row holding NULL there fails to
commit (`none` here = `IntegrityError`, transaction rolled back). -/
def applyUpdate (t : Task) (u : TaskUpdate) : Option Task :=
  match mergedTitle t u, mergedDone t u with
  | some ti, some dn =>
    some ⟨t.id, ti,
      (match u.description with
       | none => t.description
       | some v => v),
      dn,
      (match u.priority with
       | none => t.priority
       | some v => v),
      (match u.due_date with
       | none => t.due_date
       | some v => v),
      t.created_at⟩
  | _, _ => none

/-- Replace the first row with the given id (an `UPDATE` by primary key keeps
the row's position in rowid order). -/
def replaceFirst (rows : List Task) (tid : Nat) (t' : Task) : List Task :=
  match rows with
  | [] => []
  | r :: rs => if r.id == tid then t' :: rs else r :: replaceFirst rs tid t'

/-- `PATCH /tasks/{id}` (src/main.py lines 92-103): pydantic validates the
body (422), the handler looks the row up (404), applies the set fields and
commits. -/
def update_task (db : DB) (tid : Nat) (u : TaskUpdate) : DB × UpdateResult :=
  if validUpdatePayload u then
    match db.rows.find? (fun r => r.id == tid) with
    | none => (db, .notFound)
    | some t =>
      match applyUpdate t u with
      | some t' => (⟨replaceFirst db.rows tid t'⟩, .ok t')
      | none => (db, .serverError)
  else
    (db, .validationError)

/-- `DELETE /tasks/{id}` (src/main.py lines 105-112): look the row up (404),
delete it by primary key, answer 204 with an empty body. -/
def delete_task (db : DB) (tid : Nat) : DB × DeleteResult :=
  match db.rows.find? (fun r => r.id == tid) with
  | none => (db, .notFound)
  | some _ => (⟨db.rows.eraseP (fun r => r.id == tid)⟩, .noContent)

/-- The `q` criterion as an optional-parameter predicate: vacuously true when
the parameter is absent or empty (line 75's `if q:`). -/
def qOpt : Option Str → Task → Bool
  | none, _ => true
  | some qs, t => if qs.isEmpty then true else qPred qs t

/-- The `done` criterion as an optional-parameter predicate. -/
def dOpt : Option Bool → Task → Bool
  | none, _ => true
  | some d, t => t.done == d

/-- The `priority` criterion as an optional-parameter predicate. -/
def prOpt : Option Int → Task → Bool
  | none, _ => true
  | some p, t => t.priority == some p

/-- `qs` is free of the SQL `LIKE` metacharacters `%` and `_`. -/
def noWild : Str → Bool
  | [] => true
  | c :: cs => !(c == '%') && !(c == '_') && noWild cs

/-- The spec's own reading of the `q` filter — "substring match on title OR
description (case-sensitive substring)" — stated for comparison with the
implemented `qPred`. -/
def specCaseSensitiveQMatch (qs : Str) (t : Task) : Bool :=
  occursIn qs t.title ||
    (match t.description with
     | some ds => occursIn qs ds
     | none => false)

/-- A client-visible mutating operation, for stating table invariants over
arbitrary operation sequences. -/
inductive Op where
  | create (now : Nat) (p : TaskCreate)
  | update (tid : Nat) (u : TaskUpdate)
  | delete (tid : Nat)

/-- The table after one operation (responses discarded). -/
def applyOp (db : DB) : Op → DB
  | .create now p => (create_task db now p).1
  | .update tid u => (update_task db tid u).1
  | .delete tid => (delete_task db tid).1

/-- The table after a sequence of operations. -/
def runOps (db : DB) : List Op → DB
  | [] => db
  | op :: ops => runOps (applyOp db op) ops

/-- Invariant of the stored table: every row's title is non-empty and not
whitespace-only (its strip is non-empty) and at most 200 characters long.
A NULL title is not even representable on a stored row (`title` is a NOT NULL
column, and a commit that would violate that fails and stores nothing). -/
def titleInv (db : DB) : Prop :=
  ∀ t ∈ db.rows, trim t.title ≠ [] ∧ t.title.length ≤ 200

/-- Concrete data used to instantiate the proofs: the spec's example task. -/
def exTask : Task := ⟨1, "Buy milk".toList, none, false, some 3, none, 0⟩

/-- A one-row table holding the example task. -/
def exDB : DB := ⟨[exTask]⟩

/-- A completed second task with a description. -/
def exTask2 : Task := ⟨2, "Pay rent".toList, some ("monthly".toList), true, some 1, none, 1⟩

/-- A two-row table. -/
def exDB2 : DB := ⟨[exTask, exTask2]⟩

/-- A lower-case query string. -/
def qBuy : Str := "buy".toList

/-- A concrete operation sequence: create, toggle done, delete. -/
def exOps : List Op :=
  [Op.create 5 (defaultCreate ("Buy milk".toList)), Op.update 1 (doneOnly true), Op.delete 1]

/-! ### Helper lemmas: trimming -/

theorem dropWhile_head_false {p : Char → Bool} {l : Str} {a : Char} {as : Str}
    (h : l.dropWhile p = a :: as) : p a = false := by
  induction l with
  | nil => simp [List.dropWhile] at h
  | cons b bs ih =>
    by_cases hb : p b = true
    · rw [List.dropWhile_cons_of_pos hb] at h
      exact ih h
    · rw [List.dropWhile_cons_of_neg hb] at h
      cases h
      simpa using hb

theorem trim_eq_nil_iff {s : Str} : trim s = [] ↔ ∀ c ∈ s, isWs c = true := by
  unfold trim
  rw [List.reverse_eq_nil_iff, List.dropWhile_eq_nil_iff]
  constructor
  · intro h c hc
    have hsplit := List.takeWhile_append_dropWhile isWs s
    rw [← hsplit] at hc
    rcases List.mem_append.1 hc with h1 | h2
    · exact List.mem_takeWhile_imp h1
    · exact h c (List.mem_reverse.2 h2)
  · intro h c hc
    exact h c ((List.dropWhile_sublist isWs).mem (List.mem_reverse.1 hc))

theorem trim_trim_ne_nil {s : Str} (h : trim s ≠ []) : trim (trim s) ≠ [] := by
  intro hnil
  rw [trim_eq_nil_iff] at hnil
  rcases hX : (s.dropWhile isWs).reverse.dropWhile isWs with _ | ⟨a, as⟩
  · apply h
    unfold trim
    rw [hX]
    rfl
  · have ha : isWs a = false := dropWhile_head_false hX
    have hmem : a ∈ trim s := by
      unfold trim
      rw [hX]
      exact List.mem_reverse.2 (List.mem_cons_self a as)
    rw [hnil a hmem] at ha
    cases ha

theorem validTitle_iff {s : Str} :
    validTitle s = true ↔ 1 ≤ (trim s).length ∧ (trim s).length ≤ 200 := by
  simp [validTitle]

theorem validTitle_trim_ne_nil {s : Str} (h : validTitle s = true) : trim s ≠ [] := by
  rcases validTitle_iff.1 h with ⟨h1, _⟩
  intro hnil
  rw [hnil] at h1
  exact absurd h1 (by simp)

/-! ### Helper lemmas: the table -/

theorem le_maxId {rows : List Task} {r : Task} (h : r ∈ rows) : r.id ≤ maxId rows := by
  induction rows with
  | nil => cases h
  | cons a as ih =>
    rcases List.mem_cons.1 h with rfl | h'
    · exact Nat.le_max_left _ _
    · exact le_trans (ih h') (Nat.le_max_right _ _)

theorem find?_append_singleton {rows : List Task} {t : Task}
    (h : ∀ r ∈ rows, r.id ≠ t.id) :
    (rows ++ [t]).find? (fun r => r.id == t.id) = some t := by
  rw [List.find?_append]
  have h1 : rows.find? (fun r => r.id == t.id) = none := by
    rw [List.find?_eq_none]
    intro r hr
    simpa using h r hr
  rw [h1]
  simp [List.find?]

theorem replaceFirst_self {rows : List Task} {tid : Nat} {t : Task}
    (h : rows.find? (fun r => r.id == tid) = some t) :
    replaceFirst rows tid t = rows := by
  induction rows with
  | nil => simp [List.find?] at h
  | cons r rs ih =>
    rw [List.find?_cons] at h
    cases hr : (r.id == tid) with
    | true =>
      rw [hr] at h
      simp only [Option.some.injEq] at h
      subst h
      simp [replaceFirst, hr]
    | false =>
      rw [hr] at h
      simp only [replaceFirst, hr]
      simp [ih h]

theorem mem_replaceFirst {rows : List Task} {tid : Nat} {t' r : Task}
    (h : r ∈ replaceFirst rows tid t') : r = t' ∨ r ∈ rows := by
  induction rows with
  | nil => simp [replaceFirst] at h
  | cons a as ih =>
    cases ha : (a.id == tid) with
    | true =>
      simp only [replaceFirst, ha, if_pos] at h
      rcases List.mem_cons.1 h with rfl | h'
      · exact Or.inl rfl
      · exact Or.inr (List.mem_cons.2 (Or.inr h'))
    | false =>
      simp only [replaceFirst, ha] at h
      simp only [Bool.false_eq_true, if_false] at h
      rcases List.mem_cons.1 h with rfl | h'
      · exact Or.inr (List.mem_cons.2 (Or.inl rfl))
      · rcases ih h' with h'' | h''
        · exact Or.inl h''
        · exact Or.inr (List.mem_cons.2 (Or.inr h''))

theorem find?_eraseP_id {rows : List Task} {tid : Nat}
    (hnd : (rows.map Task.id).Nodup) :
    (rows.eraseP (fun r => r.id == tid)).find? (fun r => r.id == tid) = none := by
  induction rows with
  | nil => simp [List.eraseP]
  | cons a as ih =>
    rw [List.map_cons, List.nodup_cons] at hnd
    obtain ⟨hna, hnd'⟩ := hnd
    cases ha : (a.id == tid) with
    | true =>
      rw [List.eraseP_cons, ha, cond_true]
      rw [List.find?_eq_none]
      intro r hr
      have haid : a.id = tid := by simpa using ha
      intro hrid
      have : r.id = a.id := by
        have := (by simpa using hrid : r.id = tid)
        omega
      exact hna (this ▸ List.mem_map_of_mem Task.id hr)
    | false =>
      rw [List.eraseP_cons, ha, cond_false, List.find?_cons, ha]
      exact ih hnd'

/-! ### Helper lemmas: `LIKE` matching -/

theorem likeMatchF_percent_nil :
    ∀ (f : Nat) (s : Str), 1 + s.length < f → likeMatchF f ['%'] s = true := by
  intro f
  induction f with
  | zero => intro s h; omega
  | succ f ih =>
    intro s h
    cases s with
    | nil =>
      obtain ⟨f', rfl⟩ : ∃ f', f = f' + 1 := by
        rcases f with _ | f'
        · simp at h
        · exact ⟨f', rfl⟩
      simp [likeMatchF]
    | cons c s' =>
      simp only [likeMatchF, if_pos, beq_self_eq_true, Bool.or_eq_true]
      right
      exact ih s' (by simp at h; omega)

theorem likeMatchF_lit :
    ∀ (f : Nat) (qs s : Str), noWild qs = true → qs.length + 1 + s.length < f →
      likeMatchF f (qs ++ ['%']) s = leadMatch (qs.map foldChar) (s.map foldChar) := by
  intro f
  induction f with
  | zero => intro qs s _ h; omega
  | succ f ih =>
    intro qs s hw hb
    cases qs with
    | nil =>
      simp only [List.nil_append, List.map_nil, leadMatch]
      exact likeMatchF_percent_nil (f + 1) s (by simp at hb ⊢; omega)
    | cons a qs' =>
      simp only [noWild, Bool.and_eq_true, Bool.not_eq_true'] at hw
      obtain ⟨⟨ha1, ha2⟩, hw'⟩ := hw
      cases s with
      | nil =>
        simp only [List.cons_append, likeMatchF, ha1, List.map_cons, List.map_nil]
        simp [leadMatch, ha1]
      | cons c s' =>
        simp only [List.cons_append, likeMatchF, ha1, List.map_cons, leadMatch]
        simp only [Bool.false_eq_true, if_false, ha2, Bool.false_or]
        have hb' : qs'.length + 1 + s'.length < f := by
          simp only [List.length_cons] at hb
          omega
        simp only [List.append_eq]
        rw [ih qs' s' hw' hb']

theorem likeMatchF_contains :
    ∀ (f : Nat) (qs s : Str), noWild qs = true → qs.length + 2 + s.length < f →
      likeMatchF f ('%' :: (qs ++ ['%'])) s = occursIn (qs.map foldChar) (s.map foldChar) := by
  intro f
  induction f with
  | zero => intro qs s _ h; omega
  | succ f ih =>
    intro qs s hw hb
    cases s with
    | nil =>
      simp only [likeMatchF, beq_self_eq_true, if_pos, Bool.or_false]
      rw [likeMatchF_lit f qs [] hw (by simp at hb ⊢; omega)]
      cases qs with
      | nil => simp [leadMatch, occursIn]
      | cons a qs' => simp [leadMatch, occursIn]
    | cons c s' =>
      simp only [likeMatchF, beq_self_eq_true, if_pos]
      rw [likeMatchF_lit f qs (c :: s') hw (by simp at hb ⊢; omega)]
      rw [ih qs s' hw (by simp at hb ⊢; omega)]
      simp [occursIn]

theorem likeContains_eq {column qs : Str} (hw : noWild qs = true) :
    likeContains column qs = occursIn (qs.map foldChar) (column.map foldChar) := by
  unfold likeContains likeMatch
  exact likeMatchF_contains _ qs column hw (by simp [List.length_append])

/-! ### Helper lemmas: the list endpoint -/

theorem filter_stage_q (rows : List Task) (q : Option Str) :
    (match q with
     | some qs => if qs.isEmpty then rows else rows.filter (qPred qs)
     | none => rows) = rows.filter (fun t => qOpt q t) := by
  cases q with
  | none => simp [qOpt, List.filter_true]
  | some qs =>
    cases hqe : qs.isEmpty
    · simp [qOpt, hqe]
    · simp [qOpt, hqe, List.filter_true]

theorem filter_stage_d (rows : List Task) (d : Option Bool) :
    (match d with
     | some dv => rows.filter (fun t => t.done == dv)
     | none => rows) = rows.filter (fun t => dOpt d t) := by
  cases d <;> simp [dOpt, List.filter_true]

theorem filter_stage_pr (rows : List Task) (pr : Option Int) :
    (match pr with
     | some pv => rows.filter (fun t => t.priority == some pv)
     | none => rows) = rows.filter (fun t => prOpt pr t) := by
  cases pr <;> simp [prOpt, List.filter_true]

theorem list_tasks_eq (db : DB) (q : Option Str) (d : Option Bool)
    (pr : Option Int) (l o : Nat) :
    list_tasks db q d pr l o =
      ((db.rows.filter (fun t => qOpt q t && dOpt d t && prOpt pr t)).drop o).take l := by
  simp only [list_tasks]
  rw [filter_stage_q db.rows q, filter_stage_d _ d, filter_stage_pr _ pr]
  rw [List.filter_filter, List.filter_filter]
  congr 1
  congr 1
  apply List.filter_congr
  intro t _
  cases qOpt q t <;> cases dOpt d t <;> cases prOpt pr t <;> rfl

/-! ### The claims -/

/-- C1: for every create request whose title is valid (non-empty after
trimming, length 1-200), the create operation returns status 201 and a task
with a non-null server-assigned id and created_at timestamp, and every other
field equal to the client input (the title as stripped by validation) or,
when omitted, to the documented default (description=null, done=false,
priority=3, due_date=null). -/
theorem create_valid_creates_task (db : DB) (now : Nat) (p : TaskCreate)
    (h : validTitle p.title = true) :
    ∃ t : Task,
      create_task db now p = (⟨db.rows ++ [t]⟩, .created t) ∧
      (CreateResult.created t).status = 201 ∧
      t.id = newId db.rows ∧ 0 < t.id ∧ t.created_at = now ∧
      t.title = trim p.title ∧ t.description = p.description ∧
      t.done = p.done ∧ t.priority = p.priority ∧ t.due_date = p.due_date ∧
      (defaultCreate p.title).description = none ∧
      (defaultCreate p.title).done = false ∧
      (defaultCreate p.title).priority = some 3 ∧
      (defaultCreate p.title).due_date = none := by
  refine ⟨⟨newId db.rows, trim p.title, p.description, p.done, p.priority,
    p.due_date, now⟩, ?_⟩
  unfold create_task
  rw [if_pos h]
  exact ⟨rfl, rfl, rfl, Nat.succ_pos _, rfl, rfl, rfl, rfl, rfl, rfl, rfl, rfl,
    rfl, rfl⟩

/-- Witness for C1: the spec's example, `create {title: "Buy milk"}` on an
empty table. -/
theorem create_valid_creates_task_witness :
    ∃ t : Task,
      create_task ⟨[]⟩ 0 (defaultCreate ("Buy milk".toList)) =
        (⟨([] : List Task) ++ [t]⟩, .created t) ∧
      (CreateResult.created t).status = 201 ∧
      t.id = newId ([] : List Task) ∧ 0 < t.id ∧ t.created_at = 0 ∧
      t.title = trim (defaultCreate ("Buy milk".toList)).title ∧
      t.description = (defaultCreate ("Buy milk".toList)).description ∧
      t.done = (defaultCreate ("Buy milk".toList)).done ∧
      t.priority = (defaultCreate ("Buy milk".toList)).priority ∧
      t.due_date = (defaultCreate ("Buy milk".toList)).due_date ∧
      (defaultCreate (defaultCreate ("Buy milk".toList)).title).description = none ∧
      (defaultCreate (defaultCreate ("Buy milk".toList)).title).done = false ∧
      (defaultCreate (defaultCreate ("Buy milk".toList)).title).priority = some 3 ∧
      (defaultCreate (defaultCreate ("Buy milk".toList)).title).due_date = none :=
  create_valid_creates_task ⟨[]⟩ 0 (defaultCreate ("Buy milk".toList)) (by decide)

/-- C2: a create request whose title is empty or whitespace-only after
trimming, or longer than 200 characters after trimming, fails validation with
422 and leaves the stored table unchanged. -/
theorem create_invalid_title_rejected (db : DB) (now : Nat) (p : TaskCreate)
    (h : trim p.title = [] ∨ 200 < (trim p.title).length) :
    create_task db now p = (db, .validationError) ∧
    CreateResult.validationError.status = 422 := by
  have hv : validTitle p.title = false := by
    rcases h with h | h
    · simp [validTitle, h]
    · simp only [validTitle, decide_eq_false_iff_not]
      intro hc
      omega
  unfold create_task
  rw [if_neg (by simp [hv])]
  exact ⟨rfl, rfl⟩

/-- Witness for C2: creating with a whitespace-only title on an empty table. -/
theorem create_invalid_title_rejected_witness :
    create_task ⟨[]⟩ 0 (defaultCreate ("   ".toList)) =
      (⟨[]⟩, .validationError) ∧
    CreateResult.validationError.status = 422 :=
  create_invalid_title_rejected ⟨[]⟩ 0 (defaultCreate ("   ".toList))
    (Or.inl (by decide))

/-- C3: a successful create followed by a get of the returned id returns the
created task unchanged (round-trip). -/
theorem get_after_create_roundtrip (db : DB) (now : Nat) (p : TaskCreate)
    (db' : DB) (t : Task)
    (h : create_task db now p = (db', .created t)) :
    get_task db' t.id = .ok t := by
  unfold create_task at h
  by_cases hv : validTitle p.title = true
  · rw [if_pos hv] at h
    injection h with h1 h2
    injection h2 with h3
    subst h3
    subst h1
    unfold get_task
    rw [find?_append_singleton ?hne]
    case hne =>
      intro r hr heq
      have hle := le_maxId hr
      have heq' : r.id = maxId db.rows + 1 := heq
      omega
  · rw [if_neg hv] at h
    injection h with h1 h2
    injection h2

/-- Witness for C3: get after creating the example task on an empty table. -/
theorem get_after_create_roundtrip_witness :
    get_task ⟨[exTask]⟩ exTask.id = .ok exTask :=
  get_after_create_roundtrip ⟨[]⟩ 0 (defaultCreate ("Buy milk".toList))
    ⟨[exTask]⟩ exTask (by decide)

/-- C4: for an existing task, every field absent from a partial-update payload
keeps its stored value: the empty payload changes nothing (200 with the
unchanged task, table unchanged); a payload containing only `done` changes
only `done`; and in general an absent field survives any successful merge. -/
theorem update_partial_frame (db : DB) (tid : Nat) (t : Task)
    (h : db.rows.find? (fun r => r.id == tid) = some t) :
    update_task db tid emptyUpdate = (db, .ok t) ∧
    (∀ d : Bool,
      update_task db tid (doneOnly d) =
        (⟨replaceFirst db.rows tid
            ⟨t.id, t.title, t.description, d, t.priority, t.due_date, t.created_at⟩⟩,
         .ok ⟨t.id, t.title, t.description, d, t.priority, t.due_date, t.created_at⟩)) ∧
    (∀ (u : TaskUpdate) (t' : Task), applyUpdate t u = some t' →
      (u.title = none → t'.title = t.title) ∧
      (u.description = none → t'.description = t.description) ∧
      (u.done = none → t'.done = t.done) ∧
      (u.priority = none → t'.priority = t.priority) ∧
      (u.due_date = none → t'.due_date = t.due_date)) := by
  refine ⟨?_, ?_, ?_⟩
  · unfold update_task
    rw [h]
    show (⟨replaceFirst db.rows tid t⟩, UpdateResult.ok t) = (db, UpdateResult.ok t)
    rw [replaceFirst_self h]
  · intro d
    unfold update_task
    rw [h]
    rfl
  · intro u t' happ
    obtain ⟨ut, ud, udn, up, udd⟩ := u
    rcases ut with _ | (_ | s) <;> rcases udn with _ | (_ | b) <;>
      cases happ <;>
      refine ⟨?_, ?_, ?_, ?_, ?_⟩ <;> intro hh <;>
      first
      | rfl
      | (cases hh; rfl)
      | cases hh

/-- Witness for C4: the empty PATCH on the example table returns the stored
task and leaves the table unchanged. -/
theorem update_partial_frame_witness :
    update_task exDB 1 emptyUpdate = (exDB, UpdateResult.ok exTask) :=
  (update_partial_frame exDB 1 exTask (by decide)).1

/-- C5: deleting an existing id answers 204 with an empty body and removes the
row; deleting the same id again answers 404 and leaves the table unchanged. -/
theorem delete_twice (db : DB) (tid : Nat) (t : Task)
    (hnd : (db.rows.map Task.id).Nodup)
    (h : db.rows.find? (fun r => r.id == tid) = some t) :
    delete_task db tid = (⟨db.rows.eraseP (fun r => r.id == tid)⟩, .noContent) ∧
    DeleteResult.noContent.status = 204 ∧
    (db.rows.eraseP (fun r => r.id == tid)).find? (fun r => r.id == tid) = none ∧
    delete_task ⟨db.rows.eraseP (fun r => r.id == tid)⟩ tid =
      (⟨db.rows.eraseP (fun r => r.id == tid)⟩, .notFound) := by
  have hnone := @find?_eraseP_id db.rows tid hnd
  refine ⟨?_, rfl, hnone, ?_⟩
  · unfold delete_task
    rw [h]
  · simp [delete_task, hnone]

/-- Witness for C5: deleting the only row of the example table. -/
theorem delete_twice_witness :
    delete_task exDB 1 = (⟨exDB.rows.eraseP (fun r => r.id == 1)⟩, DeleteResult.noContent) :=
  (delete_twice exDB 1 exTask (by decide) (by decide)).1

/-- C6: every task returned by a list request with done=true has done=true
(whatever the other parameters); and when q and done — and optionally
priority — are all provided and the default window does not truncate
(offset 0, limit at least the table size), the result is exactly the rows
satisfying the conjunction of all provided criteria. -/
theorem list_filters_and_combined (db : DB) (l : Nat) :
    (∀ (q : Option Str) (pr : Option Int) (o : Nat),
      ∀ t ∈ list_tasks db q (some true) pr l o, t.done = true) ∧
    (∀ (qs : Str) (d : Bool), db.rows.length ≤ l →
      list_tasks db (some qs) (some d) none l 0 =
        db.rows.filter (fun t => qOpt (some qs) t && dOpt (some d) t)) ∧
    (∀ (qs : Str) (d : Bool) (pv : Int), db.rows.length ≤ l →
      list_tasks db (some qs) (some d) (some pv) l 0 =
        db.rows.filter (fun t =>
          qOpt (some qs) t && dOpt (some d) t && prOpt (some pv) t)) := by
  refine ⟨?_, ?_, ?_⟩
  · intro q pr o t ht
    rw [list_tasks_eq] at ht
    have ht2 := List.mem_of_mem_drop (List.mem_of_mem_take ht)
    have hp := (List.mem_filter.1 ht2).2
    simp only [Bool.and_eq_true] at hp
    have hdone := hp.1.2
    simpa [dOpt] using hdone
  · intro qs d hlen
    rw [list_tasks_eq, List.drop_zero]
    rw [List.take_of_length_le (le_trans (List.length_filter_le _ _) hlen)]
    apply List.filter_congr
    intro t _
    simp [prOpt]
  · intro qs d pv hlen
    rw [list_tasks_eq, List.drop_zero]
    rw [List.take_of_length_le (le_trans (List.length_filter_le _ _) hlen)]

/-- Witness for C6: the combined q ∧ done filter on the two-row table. -/
theorem list_filters_and_combined_witness :
    list_tasks exDB2 (some qBuy) (some true) none 100 0 =
      exDB2.rows.filter (fun t => qOpt (some qBuy) t && dOpt (some true) t) :=
  (list_filters_and_combined exDB2 100).2.1 qBuy true (by decide)

/-- C7 as stated fails on the code: `contains` compiles to SQLite `LIKE`,
whose default comparison is ASCII-case-insensitive, so the query "buy"
returns the "Buy milk" task although "buy" is not a case-sensitive substring
of its title or of its (absent) description. -/
theorem list_q_filter_not_case_sensitive :
    exTask ∈ list_tasks exDB (some qBuy) none none 100 0 ∧
    specCaseSensitiveQMatch qBuy exTask = false :=
  ⟨by decide, by decide⟩

/-- C7 amended: for every non-empty query string free of the `LIKE` wildcards
`%` and `_`, the list operation's q filter matches exactly those tasks where
the query occurs as an ASCII-case-insensitive substring of the title or of
the description. -/
theorem list_q_filter_ascii_ci (qs : Str) (t : Task)
    (h1 : qs ≠ []) (hw : noWild qs = true) :
    qOpt (some qs) t = true ↔
      (occursIn (qs.map foldChar) (t.title.map foldChar) = true ∨
       ∃ ds, t.description = some ds ∧
         occursIn (qs.map foldChar) (ds.map foldChar) = true) := by
  have hne : qs.isEmpty = false := by
    cases qs
    · exact absurd rfl h1
    · rfl
  simp only [qOpt, hne, Bool.false_eq_true, if_false]
  unfold qPred
  rw [likeContains_eq hw]
  cases hd : t.description with
  | none => simp [hd]
  | some ds => simp [hd, likeContains_eq hw]

/-- Witness for C7's amended form: the query "buy" matches the example task
case-insensitively. -/
theorem list_q_filter_ascii_ci_witness :
    qOpt (some qBuy) exTask = true :=
  (list_q_filter_ascii_ci qBuy exTask (by decide) (by decide)).2
    (Or.inl (by decide))

/-- C8: the returned sequence has at most `limit` elements, and equals the
window of the matching rows that starts after the first `offset` of them and
extends for at most `limit` rows. -/
theorem list_limit_offset_window (db : DB) (q : Option Str) (d : Option Bool)
    (pr : Option Int) (l o : Nat) :
    (list_tasks db q d pr l o).length ≤ l ∧
    list_tasks db q d pr l o =
      ((db.rows.filter (fun t => qOpt q t && dOpt d t && prOpt pr t)).drop o).take l := by
  constructor
  · rw [list_tasks_eq]
    exact List.length_take_le _ _
  · exact list_tasks_eq db q d pr l o

/-- C10: a list request whose q parameter is the empty string behaves exactly
as if q were omitted; with no other filters it returns all rows, subject only
to the limit/offset window. -/
theorem list_empty_q_no_filter (db : DB) (d : Option Bool) (pr : Option Int)
    (l o : Nat) :
    list_tasks db (some []) d pr l o = list_tasks db none d pr l o ∧
    list_tasks db (some []) none none l o = (db.rows.drop o).take l := by
  constructor
  · rfl
  · rw [list_tasks_eq]
    have hall : (fun t : Task => qOpt (some []) t && dOpt none t && prOpt none t) =
        fun _ : Task => true := by
      funext t
      rfl
    rw [hall, List.filter_true]

/-- Rows touched by a successful update keep the title invariant. -/
theorem titleInv_replace {db : DB} {tid : Nat} {t' : Task}
    (h : titleInv db)
    (ht : trim t'.title ≠ [] ∧ t'.title.length ≤ 200) :
    titleInv ⟨replaceFirst db.rows tid t'⟩ := by
  intro r hr
  have hr' : r ∈ replaceFirst db.rows tid t' := hr
  rcases mem_replaceFirst hr' with rfl | hmem
  · exact ht
  · exact h r hmem

/-- One operation preserves the title invariant. -/
theorem titleInv_applyOp (db : DB) (op : Op) (h : titleInv db) :
    titleInv (applyOp db op) := by
  cases op with
  | create now p =>
    show titleInv (create_task db now p).1
    unfold create_task
    by_cases hv : validTitle p.title = true
    · rw [if_pos hv]
      intro t ht
      have ht' : t ∈ db.rows ++
          [(⟨newId db.rows, trim p.title, p.description, p.done, p.priority,
            p.due_date, now⟩ : Task)] := ht
      rcases List.mem_append.1 ht' with hm | hm
      · exact h t hm
      · have heq : t = ⟨newId db.rows, trim p.title, p.description, p.done,
            p.priority, p.due_date, now⟩ := by simpa using hm
        subst heq
        exact ⟨trim_trim_ne_nil (validTitle_trim_ne_nil hv), (validTitle_iff.1 hv).2⟩
    · rw [if_neg hv]
      exact h
  | update tid u =>
    show titleInv (update_task db tid u).1
    obtain ⟨ut, ud, udn, up, udd⟩ := u
    unfold update_task
    rcases ut with _ | (_ | s)
    · cases hf : db.rows.find? (fun r => r.id == tid) with
      | none => exact h
      | some t0 =>
        rcases udn with _ | (_ | b)
        · exact titleInv_replace h (h t0 (List.mem_of_find?_eq_some hf))
        · exact h
        · exact titleInv_replace h (h t0 (List.mem_of_find?_eq_some hf))
    · cases hf : db.rows.find? (fun r => r.id == tid) with
      | none => exact h
      | some t0 =>
        rcases udn with _ | (_ | b) <;> exact h
    · rw [show validUpdatePayload ⟨some (some s), ud, udn, up, udd⟩ = validTitle s
        from rfl]
      by_cases hv : validTitle s = true
      · rw [if_pos hv]
        cases hf : db.rows.find? (fun r => r.id == tid) with
        | none => exact h
        | some t0 =>
          rcases udn with _ | (_ | b)
          · exact titleInv_replace h
              ⟨trim_trim_ne_nil (validTitle_trim_ne_nil hv), (validTitle_iff.1 hv).2⟩
          · exact h
          · exact titleInv_replace h
              ⟨trim_trim_ne_nil (validTitle_trim_ne_nil hv), (validTitle_iff.1 hv).2⟩
      · rw [if_neg hv]
        exact h
  | delete tid =>
    show titleInv (delete_task db tid).1
    unfold delete_task
    cases hf : db.rows.find? (fun r => r.id == tid) with
    | none => exact h
    | some t0 =>
      intro r hr
      have hr' : r ∈ db.rows.eraseP (fun r => r.id == tid) := hr
      exact h r (List.mem_of_mem_eraseP hr')

/-- C9: no sequence of create, update, delete operations starting from a
table whose titles are all valid can produce a stored task whose title is
empty or whitespace-only (or longer than 200 characters); a NULL title is not
storable at all (NOT NULL column; such a commit fails and stores nothing). -/
theorem title_invariant_preserved (db : DB) (ops : List Op) (h : titleInv db) :
    titleInv (runOps db ops) := by
  induction ops generalizing db with
  | nil => exact h
  | cons op ops ih => exact ih _ (titleInv_applyOp db op h)

/-- Witness for C9: a concrete create/update/delete run from the empty
table. -/
theorem title_invariant_preserved_witness :
    titleInv (runOps ⟨[]⟩ exOps) :=
  title_invariant_preserved ⟨[]⟩ exOps (by intro t ht; cases ht)

end TaskApi
